import Mathlib

/-
Shallow embedding of the TCP echo/add server (src/src/server.rs) and of the
protobuf message layer it uses.  I/O is modelled by explicit traces: a
`TcpStream` carries the sequence of outcomes that successive `read` calls
will observe, a flag telling whether writes succeed, and the bytes written
so far.  The shared atomic running flag is modelled by the sequence of
values each loop observes at its guard checks.
-/

namespace EchoServer

/-- Modelled from the spec: the protobuf schema (`message.rs`, generated from
the proto file) is not under `src/`; the spec treats it as an opaque
serializer.  An echo message carries free-form text content, modelled as a
byte list. -/
structure EchoMessage where
  content : List Nat
  deriving Repr, DecidableEq

/-- Modelled from the spec: an add request carries two signed integers. -/
structure AddRequest where
  a : Int
  b : Int
  deriving Repr, DecidableEq

/-- Modelled from the spec: an add response carries the arithmetic sum. -/
structure AddResponse where
  result : Int
  deriving Repr, DecidableEq

/-- Modelled from the spec: the client-side tagged union of request
variants (`client_message::Message` in the tests). -/
inductive ClientMessage
  | echoMessage (m : EchoMessage)
  | addRequest (r : AddRequest)
  deriving Repr, DecidableEq

/-- Modelled from the spec: the server-side tagged union of response
variants (`server_message::Message` in the tests). -/
inductive ServerMessage
  | echoMessage (m : EchoMessage)
  | addResponse (r : AddResponse)
  deriving Repr, DecidableEq

/-- Modelled from the spec: zigzag encoding of a signed integer into a
natural number, as protobuf serializers use for signed fields. -/
def zigzag (i : Int) : Nat :=
  if 0 ≤ i then (2 * i).toNat else (-(2 * i) - 1).toNat

/-- Modelled from the spec: inverse of `zigzag`. -/
def unzigzag (n : Nat) : Int :=
  if n % 2 = 0 then ((n : Int) / 2) else -(((n : Int) + 1) / 2)

/-- Modelled from the spec: `EchoMessage::encode_to_vec` — serialize an echo
message to bytes.  A leading tag byte records the variant discriminant,
which the spec requires to survive encode/decode round trips. -/
def EchoMessage.encode_to_vec (m : EchoMessage) : List Nat :=
  1 :: m.content

/-- Modelled from the spec: `EchoMessage::decode` — fallible decoding of an
echo message from bytes; fails on malformed input (wrong or missing tag). -/
def EchoMessage.decode (bs : List Nat) : Option EchoMessage :=
  match bs with
  | 1 :: rest => some { content := rest }
  | _ => none

/-- Modelled from the spec: serialization of the client-side union; each
variant gets a distinct leading tag. -/
def ClientMessage.encode : ClientMessage → List Nat
  | .echoMessage m => 1 :: m.content
  | .addRequest r => [2, zigzag r.a, zigzag r.b]

/-- Modelled from the spec: fallible decoding of the server-side union. -/
def ServerMessage.decode (bs : List Nat) : Option ServerMessage :=
  match bs with
  | 1 :: rest => some (.echoMessage { content := rest })
  | [2, r] => some (.addResponse { result := unzigzag r })
  | _ => none

/-- Embedding of Rust `std::io::Error` as far as the server inspects it
outside the accept loop (it never looks at the kind there). -/
inductive IoError
  | ioError
  deriving Repr, DecidableEq

/-- Structured log events, one per logging statement in `server.rs`. -/
inductive LogEvent
  | clientDisconnected
  | received (content : List Nat)
  | decodeFailed
  | errorHandlingClient
  | handlerExiting
  | serverRunning
  | newClient
  | acceptError
  | serverStopped
  | shutdownSignal
  | alreadyStopped
  deriving Repr, DecidableEq

/-- Observable actions of the server loops: logging, sleeping, and
submitting a connection-servicing job to the thread pool. -/
inductive Action
  | log (e : LogEvent)
  | sleepMs (ms : Nat)
  | submit
  deriving Repr, DecidableEq

/-- Outcome of one `read` call on the connection: either some bytes become
available (an empty chunk is a clean peer disconnect) or an I/O error. -/
inductive ReadEvent
  | chunk (data : List Nat)
  | ioErr
  deriving Repr, DecidableEq

/-- Embedding of one `TcpStream`: the trace of outcomes future reads will
observe, whether writes (`write_all`/`flush`) succeed, and the bytes
written so far. -/
structure TcpStream where
  reads : List ReadEvent
  writeOk : Bool
  output : List Nat
  deriving Repr, DecidableEq

/-- Embedding of the `Client` struct: it owns one stream. -/
structure Client where
  stream : TcpStream
  deriving Repr, DecidableEq

/-- Everything one invocation of `Client::handle` produces: its
`io::Result<()>`, the client afterwards, the log entries emitted, and the
byte slice `&buffer[..bytes_read]` it obtained from its single read
(`none` when the read itself failed). -/
structure HandleOut where
  result : Except IoError Unit
  client : Client
  log : List Action
  bytesRead : Option (List Nat)

/-- Embedding of `Client::handle` (src/src/server.rs lines 27-49): one read
into a 512-byte buffer; zero bytes ⇒ log disconnect and return `Ok`;
otherwise decode the bytes read as an `EchoMessage`; on success log,
re-encode, `write_all` and `flush` the payload; on decode failure log an
error and return `Ok`.  An exhausted read trace is modelled as a read
error. -/
def Client.handle (c : Client) : HandleOut :=
  match c.stream.reads with
  | [] =>
      { result := .error .ioError, client := c, log := [], bytesRead := none }
  | .ioErr :: rest =>
      { result := .error .ioError,
        client := { stream := { c.stream with reads := rest } },
        log := [], bytesRead := none }
  | .chunk data :: rest =>
      let bytesRead := data.take 512
      let c1 : Client := { stream := { c.stream with reads := rest } }
      if bytesRead.length = 0 then
        { result := .ok (), client := c1,
          log := [.log .clientDisconnected], bytesRead := some bytesRead }
      else
        match EchoMessage.decode bytesRead with
        | some message =>
            let payload := message.encode_to_vec
            if c1.stream.writeOk then
              { result := .ok (),
                client := { stream := { c1.stream with output := c1.stream.output ++ payload } },
                log := [.log (.received message.content)], bytesRead := some bytesRead }
            else
              { result := .error .ioError, client := c1,
                log := [.log (.received message.content)], bytesRead := some bytesRead }
        | none =>
            { result := .ok (), client := c1,
              log := [.log .decodeFailed], bytesRead := some bytesRead }

/-- How the per-connection servicing loop ended: the running flag was
observed false, `handle()` returned an error, or the supplied schedule of
flag observations ran out (the loop is still going). -/
inductive WorkerExit
  | flagFalse
  | handleError
  | outOfTrace
  deriving Repr, DecidableEq

/-- Result of running the per-connection worker loop: final client state,
log, how the loop ended, and how many times `handle()` was invoked. -/
structure WorkerRun where
  client : Client
  log : List Action
  exit : WorkerExit
  handleCalls : Nat

/-- Embedding of the closure submitted to the thread pool
(src/src/server.rs lines 88-96): `while is_running.load { if let Err(e) =
client.handle() { log; break } }` followed by the thread-exit log.  The
list argument is the value of the running flag observed at each guard
check. -/
def workerLoop : List Bool → Client → WorkerRun
  | [], c => { client := c, log := [], exit := .outOfTrace, handleCalls := 0 }
  | f :: fs, c =>
    if f then
      let h := Client.handle c
      match h.result with
      | .ok _ =>
          let w := workerLoop fs h.client
          { client := w.client, log := h.log ++ w.log, exit := w.exit,
            handleCalls := w.handleCalls + 1 }
      | .error _ =>
          { client := h.client,
            log := h.log ++ [.log .errorHandlingClient, .log .handlerExiting],
            exit := .handleError, handleCalls := 1 }
    else
      { client := c, log := [.log .handlerExiting], exit := .flagFalse,
        handleCalls := 0 }

/-- Outcome of one `listener.accept()` attempt: a new connection, a
`WouldBlock` error, or any other accept error. -/
inductive AcceptEvent
  | conn
  | wouldBlock
  | err
  deriving Repr, DecidableEq

/-- Actions one accept-loop iteration performs for a given accept
outcome: log and submit on success, sleep 100ms on `WouldBlock`, log on
any other error. -/
def acceptActs : AcceptEvent → List Action
  | .conn => [.log .newClient, .submit]
  | .wouldBlock => [.sleepMs 100]
  | .err => [.log .acceptError]

/-- Actions the accept loop performs over a sequence of iterations. -/
def acceptActsOf : List (Bool × AcceptEvent) → List Action
  | [] => []
  | x :: xs => acceptActs x.2 ++ acceptActsOf xs

/-- Embedding of the accept loop of `Server::run` (src/src/server.rs lines
79-107): each iteration first loads the running flag (first component of
the trace entry) and exits when it is false; otherwise it handles the
accept outcome and continues.  `none` means the supplied trace ran out
while the flag was still true (the loop is still running). -/
def acceptLoop : List (Bool × AcceptEvent) → Option (List Action)
  | [] => none
  | (running, ev) :: rest =>
    if running then (acceptLoop rest).map (fun as => acceptActs ev ++ as)
    else some []

/-- Embedding of the `Server` struct state: the listener is kept abstract;
`is_running` is the shared atomic flag. -/
structure ServerState where
  is_running : Bool
  deriving Repr, DecidableEq

/-- Embedding of `Server::new` (src/src/server.rs lines 60-67): bind the
listener (which may fail) and initialize the running flag to `false`. -/
def Server.new (bindOk : Bool) : Except IoError ServerState :=
  if bindOk then .ok { is_running := false } else .error .ioError

/-- Embedding of the first statement of `Server::run`:
`self.is_running.store(true, Ordering::SeqCst)`. -/
def Server.runStart (s : ServerState) : ServerState :=
  { s with is_running := true }

/-- Embedding of `Server::run` (src/src/server.rs lines 70-110): store
`true` into the running flag, log the address (`local_addr` may fail), put
the listener into non-blocking mode (may fail), run the accept loop over
the given trace, then log `Server stopped.` and return `Ok`.  The first
component is the flag state right after the initial store; the second is
`none` when the trace ran out with the flag still true. -/
def Server.run (s : ServerState) (localAddrOk : Bool) (nbOk : Bool)
    (trace : List (Bool × AcceptEvent)) :
    ServerState × Option (Except IoError (List Action)) :=
  let s1 := Server.runStart s
  if localAddrOk then
    if nbOk then
      match acceptLoop trace with
      | some as =>
          (s1, some (.ok (Action.log .serverRunning :: as ++ [Action.log .serverStopped])))
      | none => (s1, none)
    else (s1, some (.error .ioError))
  else (s1, some (.error .ioError))

/-- Embedding of `Server::stop` (src/src/server.rs lines 114-121): if the
flag is true, store false and log the shutdown signal; otherwise log a
warning and change nothing. -/
def Server.stop (s : ServerState) : ServerState × List Action :=
  if s.is_running then
    ({ is_running := false }, [.log .shutdownSignal])
  else
    (s, [.log .alreadyStopped])

/-- Wire bytes of the add request `AddRequest` with `a=10, b=20` from
`test_client_add_request`, wrapped in the client-side union as the test
sends it. -/
def addRequestWire : List Nat :=
  ClientMessage.encode (ClientMessage.addRequest { a := 10, b := 20 })

/-- Connection on which exactly that add request arrives. -/
def addRequestClient : Client :=
  { stream := { reads := [ReadEvent.chunk addRequestWire], writeOk := true, output := [] } }

/-- Connection whose peer has disconnected cleanly: every read returns zero
bytes. -/
def disconnectedClient : Client :=
  { stream := { reads := [ReadEvent.chunk [], ReadEvent.chunk []], writeOk := true, output := [] } }



lemma handle_ioErr (c : Client) (rest : List ReadEvent)
    (h : c.stream.reads = ReadEvent.ioErr :: rest) :
    Client.handle c =
      { result := .error .ioError,
        client := { stream := { c.stream with reads := rest } },
        log := [], bytesRead := none } := by
  obtain ⟨⟨reads, w, o⟩⟩ := c
  simp only at h
  subst h
  rfl

lemma handle_chunk_disconnect (c : Client) (data : List Nat) (rest : List ReadEvent)
    (h : c.stream.reads = ReadEvent.chunk data :: rest)
    (hz : data.take 512 = []) :
    Client.handle c =
      { result := .ok (),
        client := { stream := { c.stream with reads := rest } },
        log := [.log .clientDisconnected], bytesRead := some (data.take 512) } := by
  obtain ⟨⟨reads, w, o⟩⟩ := c
  simp only at h
  subst h
  simp [Client.handle, hz]

lemma handle_chunk_decoded (c : Client) (data : List Nat) (rest : List ReadEvent)
    (m : EchoMessage)
    (h : c.stream.reads = ReadEvent.chunk data :: rest)
    (hd : EchoMessage.decode (data.take 512) = some m) :
    Client.handle c =
      (if c.stream.writeOk then
        { result := .ok (),
          client := { stream := { c.stream with reads := rest, output := c.stream.output ++ m.encode_to_vec } },
          log := [.log (.received m.content)], bytesRead := some (data.take 512) }
      else
        { result := .error .ioError,
          client := { stream := { c.stream with reads := rest } },
          log := [.log (.received m.content)], bytesRead := some (data.take 512) }) := by
  obtain ⟨⟨reads, w, o⟩⟩ := c
  simp only at h
  subst h
  have hne : data.take 512 ≠ [] := by
    intro hnil
    rw [hnil] at hd
    simp [EchoMessage.decode] at hd
  simp only [Client.handle]
  rw [if_neg (by simpa [List.length_eq_zero] using hne), hd]

lemma handle_chunk_undecodable (c : Client) (data : List Nat) (rest : List ReadEvent)
    (h : c.stream.reads = ReadEvent.chunk data :: rest)
    (hne : data.take 512 ≠ [])
    (hd : EchoMessage.decode (data.take 512) = none) :
    Client.handle c =
      { result := .ok (),
        client := { stream := { c.stream with reads := rest } },
        log := [.log .decodeFailed], bytesRead := some (data.take 512) } := by
  obtain ⟨⟨reads, w, o⟩⟩ := c
  simp only at h
  subst h
  simp only [Client.handle]
  rw [if_neg (by simpa [List.length_eq_zero] using hne), hd]


lemma workerLoop_cons_ok (fs : List Bool) (c : Client)
    (h : (Client.handle c).result = .ok ()) :
    workerLoop (true :: fs) c =
      { client := (workerLoop fs (Client.handle c).client).client,
        log := (Client.handle c).log ++ (workerLoop fs (Client.handle c).client).log,
        exit := (workerLoop fs (Client.handle c).client).exit,
        handleCalls := (workerLoop fs (Client.handle c).client).handleCalls + 1 } := by
  simp [workerLoop, h]

lemma workerLoop_cons_err (fs : List Bool) (c : Client) (e : IoError)
    (h : (Client.handle c).result = .error e) :
    workerLoop (true :: fs) c =
      { client := (Client.handle c).client,
        log := (Client.handle c).log ++ [.log .errorHandlingClient, .log .handlerExiting],
        exit := .handleError, handleCalls := 1 } := by
  simp [workerLoop, h]

lemma workerLoop_calls_pos (fs : List Bool) (c : Client) :
    1 ≤ (workerLoop (true :: fs) c).handleCalls := by
  rcases hres : (Client.handle c).result with e | u
  · rw [workerLoop_cons_err fs c e hres]
  · rw [workerLoop_cons_ok fs c hres]
    exact Nat.le_add_left 1 _

lemma acceptLoop_first_false (p : List (Bool × AcceptEvent)) (ev : AcceptEvent)
    (rest : List (Bool × AcceptEvent)) (hp : ∀ x ∈ p, x.1 = true) :
    acceptLoop (p ++ (false, ev) :: rest) = some (acceptActsOf p) := by
  induction p with
  | nil => simp [acceptLoop, acceptActsOf]
  | cons x xs ih =>
      have hx : x.1 = true := hp x (List.mem_cons_self x xs)
      have ihh := ih (fun y hy => hp y (List.mem_cons_of_mem x hy))
      obtain ⟨b, e⟩ := x
      simp only at hx
      subst hx
      simp [acceptLoop, acceptActsOf, ihh]

/-- Claim C1: a valid echo request whose bytes handle() reads and decodes as
an EchoMessage with content T is answered by writing back the encoded echo
reply, whose content is exactly T (the written payload decodes as an echo
response carrying the same content). -/
theorem echo_reply_roundtrip (c : Client) (data : List Nat) (rest : List ReadEvent)
    (m : EchoMessage)
    (hr : c.stream.reads = ReadEvent.chunk data :: rest)
    (hd : EchoMessage.decode (data.take 512) = some m)
    (hw : c.stream.writeOk = true) :
    (Client.handle c).result = .ok () ∧
    (Client.handle c).client.stream.output = c.stream.output ++ EchoMessage.encode_to_vec m ∧
    ServerMessage.decode (EchoMessage.encode_to_vec m) = some (ServerMessage.echoMessage m) := by
  rw [handle_chunk_decoded c data rest m hr hd, hw]
  exact ⟨rfl, rfl, rfl⟩

/-- Claim C1 witness: concrete echo exchange. -/
theorem echo_reply_roundtrip_witness :
    (Client.handle { stream := { reads := [ReadEvent.chunk [1, 7, 8]], writeOk := true, output := [] } }).result = .ok () ∧
    (Client.handle { stream := { reads := [ReadEvent.chunk [1, 7, 8]], writeOk := true, output := [] } }).client.stream.output = [] ++ EchoMessage.encode_to_vec { content := [7, 8] } ∧
    ServerMessage.decode (EchoMessage.encode_to_vec { content := [7, 8] }) = some (ServerMessage.echoMessage { content := [7, 8] }) :=
  echo_reply_roundtrip _ [1, 7, 8] [] { content := [7, 8] } rfl rfl rfl



/-- Claim C2 is refuted by the code: `handle()` only ever decodes an
`EchoMessage` and echoes it; `server.rs` never constructs an `AddResponse`.
On the add request `a=10, b=20` of `test_client_add_request` the handler
writes no bytes at all, so no add reply with result 30 is sent. -/
theorem add_request_gets_no_add_reply :
    (Client.handle addRequestClient).result = .ok () ∧
    (Client.handle addRequestClient).client.stream.output = [] ∧
    (Client.handle addRequestClient).log = [Action.log LogEvent.decodeFailed] :=
  ⟨rfl, rfl, rfl⟩

/-- Claim C3: a non-empty read that fails to decode makes handle() log a
decode error and return Ok, writing nothing; the connection stays open and
the worker loop (running flag still true) invokes handle() again. -/
theorem decode_failure_connection_survives (c : Client) (data : List Nat)
    (rest : List ReadEvent) (fs : List Bool)
    (hr : c.stream.reads = ReadEvent.chunk data :: rest)
    (hne : data.take 512 ≠ [])
    (hd : EchoMessage.decode (data.take 512) = none) :
    (Client.handle c).result = .ok () ∧
    (Client.handle c).client.stream.output = c.stream.output ∧
    (Client.handle c).log = [Action.log LogEvent.decodeFailed] ∧
    2 ≤ (workerLoop (true :: true :: fs) c).handleCalls := by
  have hh := handle_chunk_undecodable c data rest hr hne hd
  refine ⟨by rw [hh], by rw [hh], by rw [hh], ?_⟩
  rw [workerLoop_cons_ok (true :: fs) c (by rw [hh])]
  dsimp only
  have h1 := workerLoop_calls_pos fs (Client.handle c).client
  omega

/-- Claim C3 witness: a one-byte garbage payload. -/
theorem decode_failure_connection_survives_witness :
    (Client.handle { stream := { reads := [ReadEvent.chunk [0]], writeOk := true, output := [] } }).result = .ok () ∧
    (Client.handle { stream := { reads := [ReadEvent.chunk [0]], writeOk := true, output := [] } }).client.stream.output = [] ∧
    (Client.handle { stream := { reads := [ReadEvent.chunk [0]], writeOk := true, output := [] } }).log = [Action.log LogEvent.decodeFailed] ∧
    2 ≤ (workerLoop [true, true] { stream := { reads := [ReadEvent.chunk [0]], writeOk := true, output := [] } }).handleCalls :=
  decode_failure_connection_survives _ [0] [] [] rfl (by decide) rfl


/-- Claim C4 is refuted by the code: after a zero-byte read handle() logs
the disconnect and returns Ok, but the worker loop breaks only on Err, so
with the running flag still true it calls handle() again on the dead
connection (here: two calls across two iterations). -/
theorem zero_read_worker_calls_handle_again :
    (Client.handle disconnectedClient).result = .ok () ∧
    (Client.handle disconnectedClient).log = [Action.log LogEvent.clientDisconnected] ∧
    (workerLoop [true, true] disconnectedClient).handleCalls = 2 :=
  ⟨rfl, rfl, rfl⟩

/-- Claim C5: once the running flag is observed false at an accept-loop
guard (after any number of iterations that observed it true), the loop
exits right there (processing only the earlier iterations), run() logs
`Server stopped.` last and returns Ok. -/
theorem stop_flag_terminates_run (s : ServerState) (p : List (Bool × AcceptEvent))
    (ev : AcceptEvent) (rest : List (Bool × AcceptEvent))
    (hp : ∀ x ∈ p, x.1 = true) :
    (Server.run s true true (p ++ (false, ev) :: rest)).2 =
      some (.ok (Action.log LogEvent.serverRunning :: acceptActsOf p ++
        [Action.log LogEvent.serverStopped])) := by
  simp [Server.run, acceptLoop_first_false p ev rest hp]

/-- Claim C5 witness: one accepted connection, then the flag turns false. -/
theorem stop_flag_terminates_run_witness :
    (Server.run { is_running := true } true true
        [(true, AcceptEvent.conn), (false, AcceptEvent.wouldBlock)]).2 =
      some (.ok (Action.log LogEvent.serverRunning ::
        acceptActsOf [(true, AcceptEvent.conn)] ++ [Action.log LogEvent.serverStopped])) :=
  stop_flag_terminates_run { is_running := true } [(true, AcceptEvent.conn)]
    AcceptEvent.wouldBlock [] (by decide)

/-- Claim C6: stop() on a running server stores false and logs the shutdown
signal; stop() on a stopped server leaves the state unchanged and logs the
already-stopped warning; it is a total function, so it never errors. -/
theorem stop_idempotent_by_flag :
    Server.stop { is_running := true } =
      ({ is_running := false }, [Action.log LogEvent.shutdownSignal]) ∧
    Server.stop { is_running := false } =
      ({ is_running := false }, [Action.log LogEvent.alreadyStopped]) :=
  ⟨rfl, rfl⟩

/-- Claim C7: a read error or a write error inside handle() surfaces as an
Err result; on any Err the worker loop logs the client error, logs thread
exit, and breaks after that single handle() call; and run()'s outcome is a
function of the accept trace alone, returning Ok for every trace that
reaches a false flag — connection failures cannot change it. -/
theorem io_failure_contained :
    (∀ c rest, c.stream.reads = ReadEvent.ioErr :: rest →
        (Client.handle c).result = .error .ioError) ∧
    (∀ c data rest m, c.stream.reads = ReadEvent.chunk data :: rest →
        EchoMessage.decode (data.take 512) = some m → c.stream.writeOk = false →
        (Client.handle c).result = .error .ioError) ∧
    (∀ c fs e, (Client.handle c).result = .error e →
        (workerLoop (true :: fs) c).exit = WorkerExit.handleError ∧
        (workerLoop (true :: fs) c).handleCalls = 1 ∧
        (workerLoop (true :: fs) c).log = (Client.handle c).log ++
          [Action.log LogEvent.errorHandlingClient, Action.log LogEvent.handlerExiting]) ∧
    (∀ s p ev rest, (∀ x ∈ p, x.1 = true) →
        (Server.run s true true (p ++ (false, ev) :: rest)).2 =
          some (.ok (Action.log LogEvent.serverRunning :: acceptActsOf p ++
            [Action.log LogEvent.serverStopped]))) := by
  refine ⟨?_, ?_, ?_, ?_⟩
  · intro c rest h
    rw [handle_ioErr c rest h]
  · intro c data rest m h hd hw
    rw [handle_chunk_decoded c data rest m h hd, hw]
    rfl
  · intro c fs e h
    rw [workerLoop_cons_err fs c e h]
    exact ⟨rfl, rfl, rfl⟩
  · intro s p ev rest hp
    simp [Server.run, acceptLoop_first_false p ev rest hp]

/-- Claim C7 witness: a failing read, a failing write, a broken worker loop,
and a run() that still returns Ok. -/
theorem io_failure_contained_witness :
    (Client.handle { stream := { reads := [ReadEvent.ioErr], writeOk := true, output := [] } }).result = .error .ioError ∧
    (Client.handle { stream := { reads := [ReadEvent.chunk [1, 7]], writeOk := false, output := [] } }).result = .error .ioError ∧
    (workerLoop [true] { stream := { reads := [ReadEvent.ioErr], writeOk := true, output := [] } }).exit = WorkerExit.handleError ∧
    (Server.run { is_running := true } true true [(false, AcceptEvent.conn)]).2 =
      some (.ok (Action.log LogEvent.serverRunning :: acceptActsOf [] ++
        [Action.log LogEvent.serverStopped])) :=
  ⟨io_failure_contained.1 _ [] rfl,
   io_failure_contained.2.1 _ [1, 7] [] { content := [7] } rfl rfl rfl,
   (io_failure_contained.2.2.1 _ [] .ioError
      (io_failure_contained.1 { stream := { reads := [ReadEvent.ioErr], writeOk := true, output := [] } } [] rfl)).1,
   io_failure_contained.2.2.2 { is_running := true } [] AcceptEvent.conn [] (by simp)⟩

/-- Claim C8: an accept attempt that would block makes the loop sleep a
fixed 100ms and continue with the rest of the trace unchanged; any other
accept error is logged and the loop likewise continues — in both cases the
rest of the run is exactly the run of the remaining trace. -/
theorem accept_errors_nonfatal :
    (∀ s rest, (Server.run s true true ((true, AcceptEvent.wouldBlock) :: rest)).2 =
      (acceptLoop rest).map (fun as => Except.ok (Action.log LogEvent.serverRunning ::
        Action.sleepMs 100 :: as ++ [Action.log LogEvent.serverStopped]))) ∧
    (∀ s rest, (Server.run s true true ((true, AcceptEvent.err) :: rest)).2 =
      (acceptLoop rest).map (fun as => Except.ok (Action.log LogEvent.serverRunning ::
        Action.log LogEvent.acceptError :: as ++ [Action.log LogEvent.serverStopped]))) := by
  constructor
  · intro s rest
    cases h : acceptLoop rest <;>
      simp [Server.run, acceptLoop, acceptActs, h]
  · intro s rest
    cases h : acceptLoop rest <;>
      simp [Server.run, acceptLoop, acceptActs, h]

/-- Claim C9: every handle() invocation consumes exactly one read outcome
from the stream (so it never reads twice), and when that read delivered
data it decodes exactly the slice of at most 512 bytes obtained from it. -/
theorem handle_single_bounded_read :
    (∀ c, (Client.handle c).client.stream.reads = c.stream.reads.tail) ∧
    (∀ c data rest, c.stream.reads = ReadEvent.chunk data :: rest →
      (Client.handle c).bytesRead = some (data.take 512) ∧
      (data.take 512).length ≤ 512) := by
  constructor
  · intro c
    obtain ⟨⟨reads, w, o⟩⟩ := c
    cases reads with
    | nil => rfl
    | cons ev rest =>
        cases ev with
        | ioErr => rfl
        | chunk data =>
            by_cases hz : data.take 512 = []
            · rw [handle_chunk_disconnect _ data rest rfl hz]
              rfl
            · cases hdec : EchoMessage.decode (data.take 512) with
              | none =>
                  rw [handle_chunk_undecodable _ data rest rfl hz hdec]
                  rfl
              | some m =>
                  rw [handle_chunk_decoded _ data rest m rfl hdec]
                  cases w <;> rfl
  · intro c data rest hr
    refine ⟨?_, by simp [List.length_take]⟩
    by_cases hz : data.take 512 = []
    · rw [handle_chunk_disconnect c data rest hr hz]
    · cases hdec : EchoMessage.decode (data.take 512) with
      | none =>
          rw [handle_chunk_undecodable c data rest hr hz hdec]
      | some m =>
          rw [handle_chunk_decoded c data rest m hr hdec]
          by_cases hw : c.stream.writeOk <;> simp [hw]

/-- Claim C9 witness: a one-byte read. -/
theorem handle_single_bounded_read_witness :
    (Client.handle { stream := { reads := [ReadEvent.chunk [1]], writeOk := true, output := [] } }).client.stream.reads = ([ReadEvent.chunk [1]] : List ReadEvent).tail ∧
    (Client.handle { stream := { reads := [ReadEvent.chunk [1]], writeOk := true, output := [] } }).bytesRead = some (([1] : List Nat).take 512) ∧
    (([1] : List Nat).take 512).length ≤ 512 :=
  ⟨handle_single_bounded_read.1 _, handle_single_bounded_read.2 _ [1] [] rfl⟩

/-- Claim C10: Server::new initializes the running flag to false; stop() on
such a fresh server takes the already-stopped warning branch and changes
nothing; and run() stores true into the flag at its start, whatever state
the server was in, so a stopped server can be run again. -/
theorem new_starts_stopped_run_restarts :
    Server.new true = .ok { is_running := false } ∧
    Server.stop { is_running := false } =
      ({ is_running := false }, [Action.log LogEvent.alreadyStopped]) ∧
    (∀ s localAddrOk nbOk trace,
      ((Server.run s localAddrOk nbOk trace).1).is_running = true) := by
  refine ⟨rfl, rfl, ?_⟩
  intro s lOk nbOk trace
  cases lOk <;> cases nbOk <;> cases htr : acceptLoop trace <;>
    simp [Server.run, Server.runStart, htr]

end EchoServer
